import Mathlib

/-!
Shallow embedding of the normalization, display-name, timezone, search and
slug logic of `cities_light/abstract_models.py` and `cities_light/admin.py`.

Python strings are modelled as lists of Unicode code points (`List Nat`).
-/

/-- Python strings, modelled as their sequence of Unicode code points. -/
abbrev PyStr := List Nat

/-- Code points of a Lean string literal, used to write concrete examples. -/
def pystr (s : String) : PyStr := s.data.map Char.toNat

/-- Modelled from the spec: the external `unidecode` transliteration table for
the non-ASCII characters used in this development (diacritic stripping,
case preserved; `unidecode` itself is a third-party library, not in `src/`). -/
def unidecodeTable : List (Nat × PyStr) :=
  [(0xC0, [65]), (0xC2, [65]), (0xC7, [67]), (0xC8, [69]), (0xC9, [69]),
   (0xCA, [69]), (0xCE, [73]), (0xCF, [73]), (0xD4, [79]), (0xDB, [85]),
   (0xE0, [97]), (0xE2, [97]), (0xE4, [97]), (0xE7, [99]), (0xE8, [101]),
   (0xE9, [101]), (0xEA, [101]), (0xEB, [101]), (0xEE, [105]), (0xEF, [105]),
   (0xF4, [111]), (0xF6, [111]), (0xF9, [117]), (0xFB, [117]), (0xFC, [117]),
   (0xDF, [115, 115])]

/-- Modelled from the spec: `unidecode` on a single code point. ASCII code
points map to themselves; known non-ASCII points are transliterated via the
table; unmappable points are dropped (best-effort, total). -/
def unidecodeChar (n : Nat) : PyStr :=
  if n < 128 then [n]
  else
    match unidecodeTable.find? (fun p => p.1 == n) with
    | some p => p.2
    | none => []

/-- Embedding of `to_ascii` (abstract_models.py line 42): `force_text(unidecode(value))`. -/
def to_ascii (s : PyStr) : PyStr := s.flatMap unidecodeChar

/-- Word characters of Python's `\w` restricted to ASCII: `[a-zA-Z0-9_]`.
`ALPHA_REGEXP` is only ever applied to the output of `to_ascii`, which is pure
ASCII, so the ASCII fragment of the Unicode-aware `\w` class is what matters. -/
def isPyWordChar (n : Nat) : Bool :=
  decide ((48 ≤ n ∧ n ≤ 57) ∨ (65 ≤ n ∧ n ≤ 90) ∨ (97 ≤ n ∧ n ≤ 122) ∨ n = 95)

/-- Character class of `ALPHA_REGEXP = re.compile('[\W_]+', re.UNICODE)`:
a non-word character or an underscore. -/
def alphaRegexpMatches (n : Nat) : Bool := !(isPyWordChar n) || decide (n = 95)

/-- Embedding of `ALPHA_REGEXP.sub('', value)`: substituting the empty string
for every maximal run of matching characters deletes exactly the matching
characters, i.e. keeps the characters outside the class. -/
def alphaRegexpSub (s : PyStr) : PyStr := s.filter (fun n => !(alphaRegexpMatches n))

/-- Python `str.lower()` on one code point of ASCII text (the only text this
development lowercases is `to_ascii` output, which is pure ASCII). -/
def pyLowerChar (n : Nat) : Nat := if 65 ≤ n ∧ n ≤ 90 then n + 32 else n

/-- Python `str.lower()` on ASCII text. -/
def pyLower (s : PyStr) : PyStr := s.map pyLowerChar

/-- Embedding of `to_search` (abstract_models.py line 51):
`ALPHA_REGEXP.sub('', to_ascii(value)).lower()`. -/
def to_search (s : PyStr) : PyStr := pyLower (alphaRegexpSub (to_ascii s))

/-- ASCII letter or digit. -/
def isAsciiLetterOrDigit (n : Nat) : Bool :=
  decide ((48 ≤ n ∧ n ≤ 57) ∨ (65 ≤ n ∧ n ≤ 90) ∨ (97 ≤ n ∧ n ≤ 122))

/-- Specification-side search key: transliterate to ASCII, remove every
character that is not an ASCII letter or digit, lowercase the result. -/
def to_search_key_spec (s : PyStr) : PyStr :=
  pyLower ((to_ascii s).filter isAsciiLetterOrDigit)

theorem alphaRegexp_keep_eq (n : Nat) :
    (!(alphaRegexpMatches n)) = isAsciiLetterOrDigit n := by
  rw [Bool.eq_iff_iff]
  simp [alphaRegexpMatches, isPyWordChar, isAsciiLetterOrDigit]
  omega

theorem to_search_eq_spec (s : PyStr) : to_search s = to_search_key_spec s := by
  unfold to_search to_search_key_spec alphaRegexpSub
  rw [funext alphaRegexp_keep_eq]

theorem mem_unidecodeChar_lt (n m : Nat) (h : m ∈ unidecodeChar n) : m < 128 := by
  unfold unidecodeChar at h
  split at h
  · simp at h; omega
  · split at h
    · next p hp =>
      have hmem := List.mem_of_find?_eq_some hp
      have htab : ∀ q ∈ unidecodeTable, ∀ m ∈ q.2, m < 128 := by decide
      exact htab p hmem m h
    · simp at h

theorem to_ascii_of_ascii (s : PyStr) (h : ∀ n ∈ s, n < 128) : to_ascii s = s := by
  induction s with
  | nil => rfl
  | cons a l ih =>
    have ha : a < 128 := h a (by simp)
    have hl := ih (fun n hn => h n (by simp [hn]))
    simp only [to_ascii, List.flatMap_cons] at *
    rw [hl, unidecodeChar, if_pos ha]
    rfl

theorem mem_to_search (s : PyStr) (m : Nat) (h : m ∈ to_search s) :
    (48 ≤ m ∧ m ≤ 57) ∨ (97 ≤ m ∧ m ≤ 122) := by
  unfold to_search pyLower alphaRegexpSub at h
  rcases List.mem_map.mp h with ⟨k, hk, hmk⟩
  have hkeep := (List.mem_filter.mp hk).2
  rw [alphaRegexp_keep_eq] at hkeep
  simp only [isAsciiLetterOrDigit, decide_eq_true_eq] at hkeep
  subst hmk
  unfold pyLowerChar
  split <;> omega

theorem map_eq_self_of_mem {f : Nat → Nat} {l : PyStr} (h : ∀ a ∈ l, f a = a) :
    l.map f = l := by
  induction l with
  | nil => rfl
  | cons a t ih => simp only [List.map_cons, h a (by simp), ih fun b hb => h b (by simp [hb])]

theorem filter_eq_self_of_mem {p : Nat → Bool} {l : PyStr} (h : ∀ a ∈ l, p a = true) :
    l.filter p = l :=
  List.filter_eq_self.mpr h

/-- Output of `to_search` is already lowercase, so `pyLower` fixes it. -/
theorem pyLower_to_search (s : PyStr) : pyLower (to_search s) = to_search s := by
  refine map_eq_self_of_mem fun a ha => ?_
  unfold pyLowerChar
  rcases mem_to_search s a ha with h | h <;> split <;> omega

/-- C2 helper: `to_search` fixes its own output. -/
theorem to_search_fixes_output (s : PyStr) : to_search (to_search s) = to_search s := by
  have hascii : to_ascii (to_search s) = to_search s :=
    to_ascii_of_ascii _ (fun n hn => by rcases mem_to_search s n hn with h | h <;> omega)
  have hfilter : alphaRegexpSub (to_search s) = to_search s := by
    refine filter_eq_self_of_mem fun a ha => ?_
    rw [alphaRegexp_keep_eq]
    rcases mem_to_search s a ha with h | h <;>
      simp only [isAsciiLetterOrDigit, decide_eq_true_eq] <;> omega
  have hlower : pyLower (to_search s) = to_search s := pyLower_to_search s
  show pyLower (alphaRegexpSub (to_ascii (to_search s))) = to_search s
  rw [hascii, hfilter, hlower]

/-- C1: `to_search` equals the specification composition — transliterate with
`to_ascii`, drop every character that is not an ASCII letter or digit, and
lowercase — and in particular sends both "Paris, Texas" and "paris texas"
to "paristexas", so it is accent-, case- and punctuation-insensitive. -/
theorem to_search_is_search_key :
    (∀ s : PyStr, to_search s = to_search_key_spec s) ∧
    to_search (pystr "Paris, Texas") = pystr "paristexas" ∧
    to_search (pystr "paris texas") = pystr "paristexas" ∧
    to_search (pystr "République Française") = pystr "republiquefrancaise" := by
  refine ⟨to_search_eq_spec, by decide, by decide, by decide⟩

/-- C2: `to_search` is idempotent. -/
theorem to_search_idempotent (s : PyStr) : to_search (to_search s) = to_search s :=
  to_search_fixes_output s

/-- Country record view: the fields `get_display_name`/`__str__` read. -/
structure CountryRec where
  name : String
deriving DecidableEq

/-- Region record view (abstract_models.py `AbstractRegion`): name plus the
raw foreign-key id of the owning country. -/
structure RegionRec where
  name : String
  country_id : Nat
deriving DecidableEq

/-- City record view (abstract_models.py `AbstractCity`): name, optional raw
region foreign-key id, raw country foreign-key id. -/
structure CityRec where
  name : String
  region_id : Option Nat
  country_id : Nat
deriving DecidableEq

/-- Storage visible to attribute dereference: id-keyed region and country
rows. A Django foreign-key attribute access (`self.region`, `self.country`)
looks the row up by id and raises `DoesNotExist` when the row is absent. -/
structure DB where
  regions : List (Nat × RegionRec)
  countries : List (Nat × CountryRec)

/-- Dereference of `self.region` by raw id. -/
def DB.findRegion (db : DB) (i : Nat) : Option RegionRec :=
  (db.regions.find? (fun p => p.1 == i)).map Prod.snd

/-- Dereference of `self.country` by raw id. -/
def DB.findCountry (db : DB) (i : Nat) : Option CountryRec :=
  (db.countries.find? (fun p => p.1 == i)).map Prod.snd

/-- Python truthiness of `self.region_id` (`if self.region_id:`): `None` and
`0` are falsy, any other integer is truthy. -/
def truthyOptNat : Option Nat → Bool
  | none => false
  | some n => decide (n ≠ 0)

/-- Python exceptions relevant to these methods: Django's `DoesNotExist` from
a failed foreign-key dereference, pytz's `UnknownTimeZoneError`, and the
`AttributeError` that `pytz.timezone(None)` raises. -/
inductive PyExc where
  | doesNotExist
  | unknownTimeZone
  | attributeError
deriving DecidableEq

/-- Embedding of `AbstractRegion.get_display_name` (abstract_models.py
line 181): `'%s, %s' % (self.name, self.country.name)`; the country
dereference is unprotected, so a missing row raises. -/
def region_get_display_name (db : DB) (r : RegionRec) : Except PyExc String :=
  match db.findCountry r.country_id with
  | some co => .ok (r.name ++ ", " ++ co.name)
  | none => .error .doesNotExist

/-- Embedding of `AbstractCity.get_display_name` (abstract_models.py
line 273). The truthy-`region_id` branch evaluates
`'%s, %s, %s' % (self.name, self.region.name, self.country.name)` under a
bare `except:` whose handler, like the else branch, evaluates
`'%s, %s' % (self.name, self.country.name)` unprotected. -/
def city_get_display_name (db : DB) (c : CityRec) : Except PyExc String :=
  if truthyOptNat c.region_id then
    match c.region_id.bind db.findRegion, db.findCountry c.country_id with
    | some r, some co => .ok (c.name ++ ", " ++ r.name ++ ", " ++ co.name)
    | _, _ =>
      match db.findCountry c.country_id with
      | some co => .ok (c.name ++ ", " ++ co.name)
      | none => .error .doesNotExist
  else
    match db.findCountry c.country_id with
    | some co => .ok (c.name ++ ", " ++ co.name)
    | none => .error .doesNotExist

/-- C3: display-name resolution formats. A Region renders as
"name, country"; a City whose `region_id` is truthy and dereferenceable
renders as "name, region, country"; a City whose truthy `region_id` does not
dereference falls back to "name, country"; a City with `region_id` unset
(None, hence falsy) renders as "name, country". The country reference is
assumed dereferenceable, as the claimed formats presuppose a country name. -/
theorem get_display_name_formats (db : DB) :
    (∀ (r : RegionRec) (co : CountryRec), db.findCountry r.country_id = some co →
      region_get_display_name db r = .ok (r.name ++ ", " ++ co.name)) ∧
    (∀ (c : CityRec) (rid : Nat) (r : RegionRec) (co : CountryRec),
      c.region_id = some rid → rid ≠ 0 → db.findRegion rid = some r →
      db.findCountry c.country_id = some co →
      city_get_display_name db c = .ok (c.name ++ ", " ++ r.name ++ ", " ++ co.name)) ∧
    (∀ (c : CityRec) (rid : Nat) (co : CountryRec),
      c.region_id = some rid → rid ≠ 0 → db.findRegion rid = none →
      db.findCountry c.country_id = some co →
      city_get_display_name db c = .ok (c.name ++ ", " ++ co.name)) ∧
    (∀ (c : CityRec) (co : CountryRec),
      c.region_id = none → db.findCountry c.country_id = some co →
      city_get_display_name db c = .ok (c.name ++ ", " ++ co.name)) := by
  refine ⟨fun r co hco => ?_, fun c rid r co hrid hne hr hco => ?_,
    fun c rid co hrid hne hr hco => ?_, fun c co hrid hco => ?_⟩
  · unfold region_get_display_name
    rw [hco]
  · unfold city_get_display_name
    rw [hrid]
    simp only [truthyOptNat, Option.some_bind, hr, hco]
    rw [if_pos (by simp [hne])]
  · unfold city_get_display_name
    rw [hrid]
    simp only [truthyOptNat, Option.some_bind, hr, hco]
    rw [if_pos (by simp [hne])]
  · unfold city_get_display_name
    rw [hrid]
    simp only [truthyOptNat, Bool.false_eq_true, if_false, hco]

/-- Sample database for witnesses: one country (id 1) and one region (id 7). -/
def sampleDB : DB :=
  { regions := [(7, { name := "Texas", country_id := 1 })],
    countries := [(1, { name := "USA" })] }

/-- Witness for C3: the four formats at concrete records over `sampleDB`. -/
theorem get_display_name_formats_witness :
    region_get_display_name sampleDB { name := "Texas", country_id := 1 } = .ok "Texas, USA" ∧
    city_get_display_name sampleDB { name := "Paris", region_id := some 7, country_id := 1 } =
      .ok "Paris, Texas, USA" ∧
    city_get_display_name sampleDB { name := "Paris", region_id := some 9, country_id := 1 } =
      .ok "Paris, USA" ∧
    city_get_display_name sampleDB { name := "Paris", region_id := none, country_id := 1 } =
      .ok "Paris, USA" := by
  refine ⟨(get_display_name_formats sampleDB).1 _ { name := "USA" } (by decide), ?_, ?_, ?_⟩
  · exact (get_display_name_formats sampleDB).2.1
      { name := "Paris", region_id := some 7, country_id := 1 } 7
      { name := "Texas", country_id := 1 } { name := "USA" } rfl (by decide) (by decide) (by decide)
  · exact (get_display_name_formats sampleDB).2.2.1
      { name := "Paris", region_id := some 9, country_id := 1 } 9
      { name := "USA" } rfl (by decide) (by decide) (by decide)
  · exact (get_display_name_formats sampleDB).2.2.2
      { name := "Paris", region_id := none, country_id := 1 } { name := "USA" } rfl (by decide)

/-- Empty storage: every dereference fails. -/
def emptyDB : DB := { regions := [], countries := [] }

/-- C4 counterexample: with a dangling country reference, both
`AbstractCity.get_display_name` and `AbstractRegion.get_display_name` raise
`DoesNotExist` instead of returning a string — the bare `except:` only guards
the three-part format in the truthy-region branch, never the country
dereference itself. -/
theorem get_display_name_raises :
    city_get_display_name emptyDB { name := "Paris", region_id := none, country_id := 1 } =
      .error .doesNotExist ∧
    region_get_display_name emptyDB { name := "Texas", country_id := 1 } =
      .error .doesNotExist := ⟨rfl, rfl⟩

/-- C4 amended: display-name resolution never raises provided the entity's
country reference dereferences; the region reference may be in any state
(unset, dangling, or valid). -/
theorem get_display_name_never_raises (db : DB) :
    (∀ r : RegionRec, (db.findCountry r.country_id).isSome →
      ∃ s, region_get_display_name db r = .ok s) ∧
    (∀ c : CityRec, (db.findCountry c.country_id).isSome →
      ∃ s, city_get_display_name db c = .ok s) := by
  constructor
  · intro r hr
    rw [Option.isSome_iff_exists] at hr
    obtain ⟨co, hco⟩ := hr
    exact ⟨_, by unfold region_get_display_name; rw [hco]⟩
  · intro c hc
    rw [Option.isSome_iff_exists] at hc
    obtain ⟨co, hco⟩ := hc
    unfold city_get_display_name
    cases htr : truthyOptNat c.region_id
    · rw [if_neg (by simp [htr]), hco]
      exact ⟨_, rfl⟩
    · rw [if_pos (by simp [htr])]
      rcases hr : c.region_id.bind db.findRegion with _ | r <;> rw [hco] <;> exact ⟨_, rfl⟩

/-- Witness for C4 amended: a city and a region over `sampleDB`, whose
country id 1 dereferences. -/
theorem get_display_name_never_raises_witness :
    (sampleDB.findCountry 1).isSome = true ∧
    (∃ s, region_get_display_name sampleDB { name := "Texas", country_id := 1 } = .ok s) ∧
    (∃ s, city_get_display_name sampleDB
      { name := "Paris", region_id := some 9, country_id := 1 } = .ok s) :=
  ⟨by decide,
   (get_display_name_never_raises sampleDB).1 { name := "Texas", country_id := 1 } (by decide),
   (get_display_name_never_raises sampleDB).2
     { name := "Paris", region_id := some 9, country_id := 1 } (by decide)⟩

/-- Modelled from the spec: the IANA zone names recognized by the external
`pytz` zone database, restricted to the sample zones this development uses. -/
def knownTimezones : List String :=
  ["UTC", "Europe/Paris", "America/Chicago", "Asia/Tokyo"]

/-- Modelled from the spec: `pytz.timezone` — returns the zone info for a
recognized IANA name, raises `UnknownTimeZoneError` for an unrecognized or
empty string, and `AttributeError` when given `None`. -/
def pytz_timezone : Option String → Except PyExc String
  | none => .error .attributeError
  | some t => if t ∈ knownTimezones then .ok t else .error .unknownTimeZone

/-- Embedding of `AbstractCity.get_timezone_info` (abstract_models.py
line 284): `pytz.timezone(self.timezone)` under an except clause catching
`UnknownTimeZoneError` and `AttributeError`, falling back to
`pytz.timezone(settings.TIME_ZONE)`. -/
def get_timezone_info (cityTz : Option String) (settingsTz : String) : Except PyExc String :=
  match pytz_timezone cityTz with
  | .ok z => .ok z
  | .error _ => pytz_timezone (some settingsTz)

/-- C5: `get_timezone_info` returns the city's own timezone when it is a
recognized IANA zone name and the configured default zone when the field is
unrecognized, empty, or absent; with a recognized default it never fails. -/
theorem get_timezone_info_fallback (default : String) (hd : default ∈ knownTimezones) :
    (∀ t, t ∈ knownTimezones → get_timezone_info (some t) default = .ok t) ∧
    (∀ t, t ∉ knownTimezones → get_timezone_info (some t) default = .ok default) ∧
    get_timezone_info none default = .ok default ∧
    get_timezone_info (some "") default = .ok default := by
  have hempty : ("" : String) ∉ knownTimezones := by decide
  refine ⟨fun t ht => ?_, fun t ht => ?_, ?_, ?_⟩
  · simp [get_timezone_info, pytz_timezone, ht]
  · simp [get_timezone_info, pytz_timezone, ht, hd]
  · simp [get_timezone_info, pytz_timezone, hd]
  · simp [get_timezone_info, pytz_timezone, hempty, hd]

/-- Witness for C5: the spec's two examples with default "UTC", plus the
absent and empty cases. -/
theorem get_timezone_info_fallback_witness :
    get_timezone_info (some "Europe/Paris") "UTC" = .ok "Europe/Paris" ∧
    get_timezone_info (some "Not/AZone") "UTC" = .ok "UTC" ∧
    get_timezone_info none "UTC" = .ok "UTC" ∧
    get_timezone_info (some "") "UTC" = .ok "UTC" :=
  ⟨(get_timezone_info_fallback "UTC" (by decide)).1 "Europe/Paris" (by decide),
   (get_timezone_info_fallback "UTC" (by decide)).2.1 "Not/AZone" (by decide),
   (get_timezone_info_fallback "UTC" (by decide)).2.2.1,
   (get_timezone_info_fallback "UTC" (by decide)).2.2.2⟩

/-- Embedding of `Base.__str__` (abstract_models.py line 80):
`getattr(self, 'display_name', None)` followed by Python truthiness —
`none` models both a missing attribute and a `None` value, and the empty
string is falsy. -/
def base_str (display_name : Option String) (name : String) : String :=
  match display_name with
  | some d => if d ≠ "" then d else name
  | none => name

/-- Embedding of `AbstractCountry.__str__` (abstract_models.py line 130):
`return self.name`. -/
def country_str (c : CountryRec) : String := c.name

/-- C10: `Base.__str__` returns `display_name` when the attribute exists and
is non-empty, otherwise the entity's `name`; `AbstractCountry.__str__`
always returns `name`. -/
theorem str_dunder_dispatch :
    (∀ d n : String, d ≠ "" → base_str (some d) n = d) ∧
    (∀ n : String, base_str (some "") n = n) ∧
    (∀ n : String, base_str none n = n) ∧
    (∀ c : CountryRec, country_str c = c.name) := by
  refine ⟨fun d n hd => ?_, fun n => rfl, fun n => rfl, fun c => rfl⟩
  simp [base_str, hd]

/-- Witness for C10: concrete display name, empty, and absent cases. -/
theorem str_dunder_dispatch_witness :
    ("Paris, Texas, USA" : String) ≠ "" ∧
    base_str (some "Paris, Texas, USA") "Paris" = "Paris, Texas, USA" ∧
    base_str (some "") "Paris" = "Paris" ∧
    base_str none "Paris" = "Paris" ∧
    country_str { name := "USA" } = "USA" :=
  ⟨by decide, str_dunder_dispatch.1 "Paris, Texas, USA" "Paris" (by decide),
   str_dunder_dispatch.2.1 "Paris", str_dunder_dispatch.2.2.1 "Paris",
   str_dunder_dispatch.2.2.2 { name := "USA" }⟩

/-- Django `icontains` lookup semantics: case-insensitive containment —
the needle occurs in the haystack after lowercasing both sides. -/
def icontains (hay needle : PyStr) : Bool := decide (pyLower needle <:+: pyLower hay)

/-- Embedding of the admin search path: the free-text query is passed through
`to_search` (`CityChangeList.get_queryset`, admin.py line 73, and
`ToSearchIContainsLookup.get_prep_lookup`, abstract_models.py line 185) and
compared with `icontains` against the stored `search_names` value. -/
def search_matches (q stored : PyStr) : Bool := icontains stored (to_search q)

/-- C6: against a stored value that is a `to_search` image (a search key),
`search_matches` holds exactly when the normalized query is a substring of
the stored key; in particular "republique" matches the stored key
"republiquefrancaise" and "xyz" does not. -/
theorem search_matches_substring (q stored : PyStr) (h : ∃ s, stored = to_search s) :
    (search_matches q stored = true ↔ to_search q <:+: stored) ∧
    search_matches (pystr "republique") (pystr "republiquefrancaise") = true ∧
    search_matches (pystr "xyz") (pystr "republiquefrancaise") = false := by
  refine ⟨?_, by decide, by decide⟩
  obtain ⟨s, rfl⟩ := h
  unfold search_matches icontains
  rw [pyLower_to_search, pyLower_to_search]
  simp

/-- Witness for C6: the stored value "republiquefrancaise" is its own search
key, and the substring characterization holds there for query "Republique". -/
theorem search_matches_substring_witness :
    pystr "republiquefrancaise" = to_search (pystr "republiquefrancaise") ∧
    (search_matches (pystr "Republique") (pystr "republiquefrancaise") = true ↔
      to_search (pystr "Republique") <:+: pystr "republiquefrancaise") :=
  ⟨by decide,
   (search_matches_substring (pystr "Republique") (pystr "republiquefrancaise")
     ⟨pystr "republiquefrancaise", by decide⟩).1⟩

/-- C9: `to_ascii` is the identity on strings of ASCII letters, digits and
spaces. -/
theorem to_ascii_identity_on_ascii (s : PyStr)
    (h : ∀ n ∈ s, isAsciiLetterOrDigit n = true ∨ n = 32) : to_ascii s = s :=
  to_ascii_of_ascii s fun n hn => by
    rcases h n hn with h1 | h1
    · simp only [isAsciiLetterOrDigit, decide_eq_true_eq] at h1
      omega
    · omega

/-- Witness for C9: a concrete ASCII alphanumeric-and-space name. -/
theorem to_ascii_identity_on_ascii_witness :
    (∀ n ∈ pystr "Paris Texas 42", isAsciiLetterOrDigit n = true ∨ n = 32) ∧
    to_ascii (pystr "Paris Texas 42") = pystr "Paris Texas 42" :=
  ⟨by decide, to_ascii_identity_on_ascii (pystr "Paris Texas 42") (by decide)⟩

/-- Decimal digit rendering with explicit fuel (fuel `n + 1` suffices for `n`). -/
def natDigitsAux : Nat → Nat → PyStr
  | 0, _ => []
  | fuel+1, n =>
    if n < 10 then [48 + n] else natDigitsAux fuel (n / 10) ++ [48 + n % 10]

/-- Decimal digit string of a natural number, as code points. -/
def natDigits (n : Nat) : PyStr := natDigitsAux (n + 1) n

/-- Decimal value of a digit string; left inverse of `natDigits`. -/
def digitsVal (l : PyStr) : Nat := l.foldl (fun acc c => 10 * acc + (c - 48)) 0

theorem digitsVal_natDigitsAux (fuel : Nat) :
    ∀ n, n < fuel → digitsVal (natDigitsAux fuel n) = n := by
  induction fuel with
  | zero => intro n h; omega
  | succ fuel ih =>
    intro n h
    show digitsVal (if n < 10 then [48 + n]
      else natDigitsAux fuel (n / 10) ++ [48 + n % 10]) = n
    split
    · next h10 =>
      show 10 * 0 + (48 + n - 48) = n
      omega
    · next h10 =>
      rw [digitsVal, List.foldl_append]
      have hn : n / 10 < fuel := by omega
      rw [show List.foldl (fun acc c => 10 * acc + (c - 48)) 0 (natDigitsAux fuel (n / 10)) =
        digitsVal (natDigitsAux fuel (n / 10)) from rfl, ih (n / 10) hn]
      show 10 * (n / 10) + (48 + n % 10 - 48) = n
      omega

theorem digitsVal_natDigits (n : Nat) : digitsVal (natDigits n) = n :=
  digitsVal_natDigitsAux (n + 1) n (by omega)

theorem natDigits_inj {a b : Nat} (h : natDigits a = natDigits b) : a = b := by
  have := congrArg digitsVal h
  rwa [digitsVal_natDigits, digitsVal_natDigits] at this

/-- Modelled from the spec: slugification of the base text (django-autoslug
is external) — lowercase the ASCII transliteration, collapse each maximal
non-alphanumeric run to a single hyphen, trim leading/trailing separators. -/
def slugBase (s : PyStr) : PyStr :=
  List.intercalate [45]
    (((pyLower (to_ascii s)).splitOnP (fun n => !(isAsciiLetterOrDigit n))).filter
      (fun w => w ≠ []))

/-- Numeric-suffix candidate `base-n` (hyphen is code point 45). -/
def slugCandidate (base : PyStr) (n : Nat) : PyStr := base ++ 45 :: natDigits n

/-- Probe loop of unique slug allocation: try `base-n`, `base-(n+1)`, … while
the candidate is occupied, for at most `fuel` further steps. -/
def probeSlug (base : PyStr) (occupied : List PyStr) : Nat → Nat → PyStr
  | n, 0 => slugCandidate base n
  | n, fuel+1 =>
    if slugCandidate base n ∈ occupied then probeSlug base occupied (n + 1) fuel
    else slugCandidate base n

/-- Modelled from the spec: unique slug allocation of
`autoslug.AutoSlugField(populate_from='name_ascii')` (external library) —
return the slugified base when unused in the scope, otherwise probe the
numeric-suffix candidates `base-2`, `base-3`, … in increasing order and
return the first unused one. The fuel `occupied.length + 1` is enough by
pigeonhole. -/
def allocate_slug (nameAscii : PyStr) (occupied : List PyStr) : PyStr :=
  if slugBase nameAscii ∈ occupied then
    probeSlug (slugBase nameAscii) occupied 2 (occupied.length + 1)
  else slugBase nameAscii

theorem slugCandidate_inj (base : PyStr) {a b : Nat}
    (h : slugCandidate base a = slugCandidate base b) : a = b := by
  unfold slugCandidate at h
  have h2 := List.append_cancel_left h
  exact natDigits_inj (List.cons.inj h2).2

theorem exists_free_candidate (base : PyStr) (occupied : List PyStr) (n : Nat) :
    ∃ k, n ≤ k ∧ k ≤ n + occupied.length ∧ slugCandidate base k ∉ occupied := by
  by_contra hcon
  push_neg at hcon
  have hsub : (Finset.Icc n (n + occupied.length)).image (slugCandidate base) ⊆
      occupied.toFinset := by
    intro x hx
    rcases Finset.mem_image.mp hx with ⟨k, hk, rfl⟩
    rcases Finset.mem_Icc.mp hk with ⟨hk1, hk2⟩
    exact List.mem_toFinset.mpr (hcon k hk1 hk2)
  have hcard1 : ((Finset.Icc n (n + occupied.length)).image (slugCandidate base)).card =
      occupied.length + 1 := by
    rw [Finset.card_image_of_injOn (fun a _ b _ h => slugCandidate_inj base h), Nat.card_Icc]
    omega
  have hcard2 := Finset.card_le_card hsub
  have hcard3 := List.toFinset_card_le occupied
  omega

theorem probeSlug_spec (base : PyStr) (occupied : List PyStr) :
    ∀ (fuel n : Nat), (∃ k, n ≤ k ∧ k ≤ n + fuel ∧ slugCandidate base k ∉ occupied) →
    ∃ m, n ≤ m ∧ probeSlug base occupied n fuel = slugCandidate base m ∧
      slugCandidate base m ∉ occupied ∧
      ∀ j, n ≤ j → j < m → slugCandidate base j ∈ occupied := by
  intro fuel
  induction fuel with
  | zero =>
    rintro n ⟨k, hk1, hk2, hk3⟩
    have hkn : k = n := by omega
    subst hkn
    exact ⟨k, Nat.le_refl k, rfl, hk3, fun j hj1 hj2 => by omega⟩
  | succ fuel ih =>
    rintro n ⟨k, hk1, hk2, hk3⟩
    show ∃ m, n ≤ m ∧ (if slugCandidate base n ∈ occupied then
        probeSlug base occupied (n + 1) fuel else slugCandidate base n) = slugCandidate base m ∧
      slugCandidate base m ∉ occupied ∧ ∀ j, n ≤ j → j < m → slugCandidate base j ∈ occupied
    by_cases hmem : slugCandidate base n ∈ occupied
    · rw [if_pos hmem]
      have hkn : k ≠ n := fun he => hk3 (he ▸ hmem)
      obtain ⟨m, hm1, hm2, hm3, hm4⟩ := ih (n + 1) ⟨k, by omega, by omega, hk3⟩
      refine ⟨m, by omega, hm2, hm3, fun j hj1 hj2 => ?_⟩
      rcases Nat.eq_or_lt_of_le hj1 with he | hlt
      · exact he ▸ hmem
      · exact hm4 j hlt hj2
    · rw [if_neg hmem]
      exact ⟨n, Nat.le_refl n, rfl, hmem, fun j hj1 hj2 => by omega⟩

/-- Sequential slug allocation for a list of names in one scope: each
allocated slug is written into the scope before the next allocation. -/
def allocate_slugs_seq (names : List PyStr) (occupied : List PyStr) : List PyStr :=
  match names with
  | [] => []
  | n :: rest =>
    allocate_slug n occupied :: allocate_slugs_seq rest (allocate_slug n occupied :: occupied)

/-- Free base slugs are returned unchanged. -/
theorem allocate_slug_of_not_mem (name : PyStr) (occupied : List PyStr)
    (h : slugBase name ∉ occupied) : allocate_slug name occupied = slugBase name := by
  unfold allocate_slug
  rw [if_neg h]

/-- Occupied base slugs yield the first free numeric-suffix candidate. -/
theorem allocate_slug_of_mem (name : PyStr) (occupied : List PyStr)
    (h : slugBase name ∈ occupied) :
    ∃ m, 2 ≤ m ∧ allocate_slug name occupied = slugCandidate (slugBase name) m ∧
      slugCandidate (slugBase name) m ∉ occupied ∧
      ∀ j, 2 ≤ j → j < m → slugCandidate (slugBase name) j ∈ occupied := by
  unfold allocate_slug
  rw [if_pos h]
  obtain ⟨k, hk1, hk2, hk3⟩ := exists_free_candidate (slugBase name) occupied 2
  obtain ⟨m, hm1, hm2, hm3, hm4⟩ :=
    probeSlug_spec (slugBase name) occupied (occupied.length + 1) 2 ⟨k, hk1, by omega, hk3⟩
  exact ⟨m, hm1, hm2, hm3, hm4⟩

/-- C7: slug allocation returns the base slug when it is unused in the scope;
otherwise it returns the first unused numeric-suffix candidate `base-m`
(all candidates `base-2`, …, `base-(m-1)` being occupied); allocating for the
names ["Georgia", "Georgia", "Georgia"] in one scope yields the three
distinct slugs "georgia", "georgia-2", "georgia-3" in that order. -/
theorem allocate_slug_spec :
    (∀ name occupied, slugBase name ∉ occupied →
      allocate_slug name occupied = slugBase name) ∧
    (∀ name occupied, slugBase name ∈ occupied →
      ∃ m, 2 ≤ m ∧ allocate_slug name occupied = slugCandidate (slugBase name) m ∧
        slugCandidate (slugBase name) m ∉ occupied ∧
        ∀ j, 2 ≤ j → j < m → slugCandidate (slugBase name) j ∈ occupied) ∧
    allocate_slugs_seq [pystr "Georgia", pystr "Georgia", pystr "Georgia"] [] =
      [pystr "georgia", pystr "georgia-2", pystr "georgia-3"] ∧
    (allocate_slugs_seq [pystr "Georgia", pystr "Georgia", pystr "Georgia"] []).Nodup :=
  ⟨allocate_slug_of_not_mem, allocate_slug_of_mem, by decide, by decide⟩

/-- Witness for C7: both branches at concrete inputs — an empty scope keeps
the base slug, an occupied scope forces a suffixed candidate. -/
theorem allocate_slug_spec_witness :
    (slugBase (pystr "Tokyo") ∉ ([] : List PyStr) ∧
      allocate_slug (pystr "Tokyo") [] = slugBase (pystr "Tokyo")) ∧
    (slugBase (pystr "Georgia") ∈ [pystr "georgia"] ∧
      ∃ m, 2 ≤ m ∧ allocate_slug (pystr "Georgia") [pystr "georgia"] =
          slugCandidate (slugBase (pystr "Georgia")) m ∧
        slugCandidate (slugBase (pystr "Georgia")) m ∉ [pystr "georgia"] ∧
        ∀ j, 2 ≤ j → j < m →
          slugCandidate (slugBase (pystr "Georgia")) j ∈ [pystr "georgia"]) :=
  ⟨⟨by decide, allocate_slug_spec.1 (pystr "Tokyo") [] (by decide)⟩,
   ⟨by decide, allocate_slug_spec.2.1 (pystr "Georgia") [pystr "georgia"] (by decide)⟩⟩

/-- Allocation never returns a slug that is already occupied in the scope. -/
theorem allocate_slug_not_mem (name : PyStr) (occupied : List PyStr) :
    allocate_slug name occupied ∉ occupied := by
  by_cases h : slugBase name ∈ occupied
  · obtain ⟨m, _, hm2, hm3, _⟩ := allocate_slug_of_mem name occupied h
    rw [hm2]
    exact hm3
  · rw [allocate_slug_of_not_mem name occupied h]
    exact h

/-- Slug store with the three uniqueness scopes of the models: Country slugs
are global (`Base.slug`), Region slugs are scoped per country
(`AbstractRegion.Meta.unique_together`), City slugs per region
(`AbstractCity.Meta.unique_together`; cities with a null region form their
own scope). -/
structure SlugStore where
  countrySlugs : List PyStr
  regionSlugs : List (Nat × PyStr)
  citySlugs : List (Option Nat × PyStr)

/-- Slugs already written in the scope keyed by `k`. -/
def scopeSlugs {K : Type} [DecidableEq K] (l : List (K × PyStr)) (k : K) : List PyStr :=
  (l.filter (fun p => decide (p.1 = k))).map Prod.snd

/-- Writes against the store: create an entity of each kind, allocating its
slug against the slugs already present in its own scope. -/
inductive GazOp where
  | addCountry (name : PyStr)
  | addRegion (country_id : Nat) (name : PyStr)
  | addCity (region_id : Option Nat) (name : PyStr)

/-- Allocate-then-write of a single entity. -/
def applyOp (st : SlugStore) : GazOp → SlugStore
  | .addCountry name =>
    { st with countrySlugs := allocate_slug name st.countrySlugs :: st.countrySlugs }
  | .addRegion cid name =>
    { st with regionSlugs :=
        (cid, allocate_slug name (scopeSlugs st.regionSlugs cid)) :: st.regionSlugs }
  | .addCity rid name =>
    { st with citySlugs :=
        (rid, allocate_slug name (scopeSlugs st.citySlugs rid)) :: st.citySlugs }

/-- A sequence of writes starting from a store state. -/
def applyOps (st : SlugStore) (ops : List GazOp) : SlugStore := ops.foldl applyOp st

/-- The empty store. -/
def emptyStore : SlugStore := ⟨[], [], []⟩

/-- Scoped slug uniqueness: no duplicate slug globally among countries,
within any country among regions, within any region among cities. -/
def SlugStore.Inv (st : SlugStore) : Prop :=
  st.countrySlugs.Nodup ∧ (∀ cid : Nat, (scopeSlugs st.regionSlugs cid).Nodup) ∧
  (∀ rid : Option Nat, (scopeSlugs st.citySlugs rid).Nodup)

theorem scopeSlugs_cons {K : Type} [DecidableEq K] (l : List (K × PyStr)) (k k' : K)
    (s : PyStr) : scopeSlugs ((k, s) :: l) k' =
      if k = k' then s :: scopeSlugs l k' else scopeSlugs l k' := by
  unfold scopeSlugs
  rw [List.filter_cons]
  split
  · next h =>
    rw [if_pos (by simpa using h)]
    rfl
  · next h =>
    rw [if_neg (by simpa using h)]

theorem applyOp_preserves_inv (st : SlugStore) (op : GazOp) (h : st.Inv) :
    (applyOp st op).Inv := by
  obtain ⟨h1, h2, h3⟩ := h
  cases op with
  | addCountry name =>
    exact ⟨List.nodup_cons.mpr ⟨allocate_slug_not_mem name st.countrySlugs, h1⟩, h2, h3⟩
  | addRegion cid name =>
    refine ⟨h1, fun cid' => ?_, h3⟩
    show (scopeSlugs ((cid, allocate_slug name (scopeSlugs st.regionSlugs cid)) ::
      st.regionSlugs) cid').Nodup
    rw [scopeSlugs_cons]
    split
    · next he =>
      subst he
      exact List.nodup_cons.mpr
        ⟨allocate_slug_not_mem name (scopeSlugs st.regionSlugs cid), h2 cid⟩
    · exact h2 cid'
  | addCity rid name =>
    refine ⟨h1, h2, fun rid' => ?_⟩
    show (scopeSlugs ((rid, allocate_slug name (scopeSlugs st.citySlugs rid)) ::
      st.citySlugs) rid').Nodup
    rw [scopeSlugs_cons]
    split
    · next he =>
      subst he
      exact List.nodup_cons.mpr
        ⟨allocate_slug_not_mem name (scopeSlugs st.citySlugs rid), h3 rid⟩
    · exact h3 rid'

theorem applyOps_preserves_inv (ops : List GazOp) :
    ∀ st : SlugStore, st.Inv → (applyOps st ops).Inv := by
  induction ops with
  | nil => exact fun st h => h
  | cons op rest ih =>
    intro st h
    exact ih (applyOp st op) (applyOp_preserves_inv st op h)

/-- C8: every state reachable from the empty store by allocate-then-write
operations satisfies scoped slug uniqueness — Country slugs globally unique,
Region slugs unique per country, City slugs unique per region. -/
theorem slug_scope_uniqueness (ops : List GazOp) : (applyOps emptyStore ops).Inv :=
  applyOps_preserves_inv ops emptyStore
    ⟨List.nodup_nil, fun cid => by simp [scopeSlugs, emptyStore],
     fun rid => by simp [scopeSlugs, emptyStore]⟩
